import Mathlib

/-! NES debugger packet model (`nesdbg/dbgpacket.h`)

A shallow embedding of the debug-packet header of the FPGA NES debugger:
the opcode catalog, the CPU register identifiers, the twelve packet classes
and the three operations every packet exposes (`PacketData`, `SizeInBytes`,
`ReturnBytesExpected`).

The header gives the two enums, the class list, the constructor signatures and
the inline method bodies.  The constructor bodies, the out-of-line methods and
`DbgPacket::CreateObjFromString` live in a translation unit that is not part of
the sources at hand; each definition standing in for one of them says so in its
doc comment.

Machine integers are natural numbers: `BYTE` is a value below `2^8`, `USHORT`
a value below `2^16`, and a `UINT` result is reduced modulo `2^32`.
-/

namespace NesDbg

/-! ## Opcode catalog and register identifiers -/

/-- The enum `DbgPacketOpCode` of `dbgpacket.h`, enumerators in declaration order. -/
inductive DbgPacketOpCode
  | DbgPacketOpCodeEcho
  | DbgPacketOpCodeCpuMemRd
  | DbgPacketOpCodeCpuMemWr
  | DbgPacketOpCodeDbgBrk
  | DbgPacketOpCodeDbgRun
  | DbgPacketOpCodeCpuRegRd
  | DbgPacketOpCodeCpuRegWr
  | DbgPacketOpCodeQueryDbgBrk
  | DbgPacketOpCodeQueryErrCode
  | DbgPacketOpCodePpuMemRd
  | DbgPacketOpCodePpuMemWr
  | DbgPacketOpCodePpuDisable
  | DbgPacketOpCodeCartSetCfg
  deriving DecidableEq, Repr, Fintype

open DbgPacketOpCode

/-- The numeric value the header assigns to each opcode enumerator. -/
def DbgPacketOpCode.toNat : DbgPacketOpCode → Nat
  | DbgPacketOpCodeEcho         => 0x00
  | DbgPacketOpCodeCpuMemRd     => 0x01
  | DbgPacketOpCodeCpuMemWr     => 0x02
  | DbgPacketOpCodeDbgBrk       => 0x03
  | DbgPacketOpCodeDbgRun       => 0x04
  | DbgPacketOpCodeCpuRegRd     => 0x05
  | DbgPacketOpCodeCpuRegWr     => 0x06
  | DbgPacketOpCodeQueryDbgBrk  => 0x07
  | DbgPacketOpCodeQueryErrCode => 0x08
  | DbgPacketOpCodePpuMemRd     => 0x09
  | DbgPacketOpCodePpuMemWr     => 0x0A
  | DbgPacketOpCodePpuDisable   => 0x0B
  | DbgPacketOpCodeCartSetCfg   => 0x0C

/-- Every enumerator of `DbgPacketOpCode`, in declaration order. -/
def DbgPacketOpCode.members : List DbgPacketOpCode :=
  [ DbgPacketOpCodeEcho, DbgPacketOpCodeCpuMemRd, DbgPacketOpCodeCpuMemWr,
    DbgPacketOpCodeDbgBrk, DbgPacketOpCodeDbgRun, DbgPacketOpCodeCpuRegRd,
    DbgPacketOpCodeCpuRegWr, DbgPacketOpCodeQueryDbgBrk, DbgPacketOpCodeQueryErrCode,
    DbgPacketOpCodePpuMemRd, DbgPacketOpCodePpuMemWr, DbgPacketOpCodePpuDisable,
    DbgPacketOpCodeCartSetCfg ]

/-- The enum `CpuReg` of `dbgpacket.h`, enumerators in declaration order. -/
inductive CpuReg
  | CpuRegPcl
  | CpuRegPch
  | CpuRegAc
  | CpuRegX
  | CpuRegY
  | CpuRegP
  | CpuRegS
  deriving DecidableEq, Repr, Fintype

open CpuReg

/-- The numeric value the header assigns to each register enumerator. -/
def CpuReg.toNat : CpuReg → Nat
  | CpuRegPcl => 0x00
  | CpuRegPch => 0x01
  | CpuRegAc  => 0x02
  | CpuRegX   => 0x03
  | CpuRegY   => 0x04
  | CpuRegP   => 0x05
  | CpuRegS   => 0x06

/-- Every enumerator of `CpuReg`, in declaration order. -/
def CpuReg.members : List CpuReg :=
  [CpuRegPcl, CpuRegPch, CpuRegAc, CpuRegX, CpuRegY, CpuRegP, CpuRegS]

/-! ## Machine integers -/

/-- Reduction of a value to the 32-bit unsigned result type `UINT`. -/
def UINT (n : Nat) : Nat := n % 2 ^ 32

/-- Modelled from the spec: the low byte of a 16-bit field ("addrLo",
"countLo"), for the constructor bodies, which are not in the header. -/
def loByte (v : Nat) : Nat := v % 256

/-- Modelled from the spec: the high byte of a 16-bit field ("addrHi",
"countHi"), for the constructor bodies, which are not in the header. -/
def hiByte (v : Nat) : Nat := v / 256 % 256

/-! ## Packet classes -/

/-- The twelve concrete classes that `dbgpacket.h` derives from `DbgPacket`,
in declaration order. -/
inductive PacketClass
  | EchoPacket
  | CpuMemRdPacket
  | CpuMemWrPacket
  | DbgBrkPacket
  | DbgRunPacket
  | CpuRegRdPacket
  | CpuRegWrPacket
  | QueryDbgBrkPacket
  | PpuMemRdPacket
  | PpuMemWrPacket
  | PpuDisablePacket
  | CartSetCfgPacket
  deriving DecidableEq, Repr, Fintype

/-- Every class of `PacketClass`, in declaration order. -/
def PacketClass.members : List PacketClass :=
  [ .EchoPacket, .CpuMemRdPacket, .CpuMemWrPacket, .DbgBrkPacket, .DbgRunPacket,
    .CpuRegRdPacket, .CpuRegWrPacket, .QueryDbgBrkPacket, .PpuMemRdPacket,
    .PpuMemWrPacket, .PpuDisablePacket, .CartSetCfgPacket ]

/-- The opcode enumerator that carries the same name as the packet class
(`EchoPacket` and `DbgPacketOpCodeEcho`, and so on). -/
def PacketClass.opCode : PacketClass → DbgPacketOpCode
  | .EchoPacket        => DbgPacketOpCodeEcho
  | .CpuMemRdPacket    => DbgPacketOpCodeCpuMemRd
  | .CpuMemWrPacket    => DbgPacketOpCodeCpuMemWr
  | .DbgBrkPacket      => DbgPacketOpCodeDbgBrk
  | .DbgRunPacket      => DbgPacketOpCodeDbgRun
  | .CpuRegRdPacket    => DbgPacketOpCodeCpuRegRd
  | .CpuRegWrPacket    => DbgPacketOpCodeCpuRegWr
  | .QueryDbgBrkPacket => DbgPacketOpCodeQueryDbgBrk
  | .PpuMemRdPacket    => DbgPacketOpCodePpuMemRd
  | .PpuMemWrPacket    => DbgPacketOpCodePpuMemWr
  | .PpuDisablePacket  => DbgPacketOpCodePpuDisable
  | .CartSetCfgPacket  => DbgPacketOpCodeCartSetCfg

/-- A packet object: one constructor per public constructor of the header, with
that constructor's parameters.  A `const BYTE*` buffer is the list of bytes it
points to. -/
inductive DbgPacket
  | EchoPacket (pEchoData : List Nat) (numBytes : Nat)
  | CpuMemRdPacket (addr numBytes : Nat)
  | CpuMemWrPacket (addr numBytes : Nat) (pData : List Nat)
  | DbgBrkPacket
  | DbgRunPacket
  | CpuRegRdPacket (reg : CpuReg)
  | CpuRegWrPacket (reg : CpuReg) (val : Nat)
  | QueryDbgBrkPacket
  | PpuMemRdPacket (addr numBytes : Nat)
  | PpuMemWrPacket (addr numBytes : Nat) (pData : List Nat)
  | PpuDisablePacket
  | CartSetCfgPacket (pINesHeader : List Nat)
  deriving DecidableEq, Repr

/-- The dynamic class of a packet object. -/
def DbgPacket.cls : DbgPacket → PacketClass
  | .EchoPacket _ _       => .EchoPacket
  | .CpuMemRdPacket _ _   => .CpuMemRdPacket
  | .CpuMemWrPacket _ _ _ => .CpuMemWrPacket
  | .DbgBrkPacket         => .DbgBrkPacket
  | .DbgRunPacket         => .DbgRunPacket
  | .CpuRegRdPacket _     => .CpuRegRdPacket
  | .CpuRegWrPacket _ _   => .CpuRegWrPacket
  | .QueryDbgBrkPacket    => .QueryDbgBrkPacket
  | .PpuMemRdPacket _ _   => .PpuMemRdPacket
  | .PpuMemWrPacket _ _ _ => .PpuMemWrPacket
  | .PpuDisablePacket     => .PpuDisablePacket
  | .CartSetCfgPacket _   => .CartSetCfgPacket

/-- Every element of a buffer is a `BYTE`. -/
def allBytes (data : List Nat) : Prop := ∀ b ∈ data, b < 2 ^ 8

instance (data : List Nat) : Decidable (allBytes data) := by
  unfold allBytes; infer_instance

/-- The constructor arguments are well typed: a `USHORT` is below `2^16`, a
`BYTE` below `2^8`, a data buffer holds as many bytes as the count that comes
with it, and an iNES header holds 16 bytes. -/
def DbgPacket.WellTyped : DbgPacket → Prop
  | .EchoPacket pEchoData numBytes =>
      numBytes < 2 ^ 16 ∧ pEchoData.length = numBytes ∧ allBytes pEchoData
  | .CpuMemRdPacket addr numBytes => addr < 2 ^ 16 ∧ numBytes < 2 ^ 16
  | .CpuMemWrPacket addr numBytes pData =>
      addr < 2 ^ 16 ∧ numBytes < 2 ^ 16 ∧ pData.length = numBytes ∧ allBytes pData
  | .DbgBrkPacket => True
  | .DbgRunPacket => True
  | .CpuRegRdPacket _ => True
  | .CpuRegWrPacket _ val => val < 2 ^ 8
  | .QueryDbgBrkPacket => True
  | .PpuMemRdPacket addr numBytes => addr < 2 ^ 16 ∧ numBytes < 2 ^ 16
  | .PpuMemWrPacket addr numBytes pData =>
      addr < 2 ^ 16 ∧ numBytes < 2 ^ 16 ∧ pData.length = numBytes ∧ allBytes pData
  | .PpuDisablePacket => True
  | .CartSetCfgPacket pINesHeader => pINesHeader.length = 16 ∧ allBytes pINesHeader

instance (p : DbgPacket) : Decidable p.WellTyped := by
  cases p <;> unfold DbgPacket.WellTyped <;> infer_instance

/-- Modelled from the spec: which configuration fields `CartSetCfgPacket` takes
out of the 16-byte iNES header.  The constructor body is not in the header and
the spec leaves the selection open ("k selected configuration fields extracted
from the 16-byte header"), so the selection is a parameter: a fixed number `k`
of fields and the function that extracts them. -/
structure CartCfgLayout where
  /-- Number of configuration bytes that follow the opcode. -/
  k : Nat
  /-- The configuration bytes taken from a header. -/
  fields : List Nat → List Nat
  /-- A 16-byte header always yields `k` bytes. -/
  fields_length : ∀ hdr : List Nat, hdr.length = 16 → (fields hdr).length = k
  /-- The packet size `1+k` is representable in the result type `UINT`. -/
  size_fits : 1 + k < 2 ^ 32

/-- A sample layout: the five header bytes 4 .. 8 are forwarded as they are. -/
def sampleLayout : CartCfgLayout where
  k := 5
  fields := fun hdr => (hdr.drop 4).take 5
  fields_length := by
    intro hdr h
    simp [List.length_take, List.length_drop, h]
  size_fits := by decide

/-- Modelled from the spec: the buffer `m_pData` each constructor fills.  The
constructor bodies are not in the header; the layout is the table of section
4.3: the opcode byte, then the 16-bit fields low byte first, then the payload. -/
def DbgPacket.m_pData (L : CartCfgLayout) : DbgPacket → List Nat
  | .EchoPacket pEchoData _ => DbgPacketOpCodeEcho.toNat :: pEchoData
  | .CpuMemRdPacket addr numBytes =>
      [DbgPacketOpCodeCpuMemRd.toNat, loByte addr, hiByte addr, loByte numBytes, hiByte numBytes]
  | .CpuMemWrPacket addr numBytes pData =>
      [DbgPacketOpCodeCpuMemWr.toNat, loByte addr, hiByte addr, loByte numBytes, hiByte numBytes]
        ++ pData
  | .DbgBrkPacket => [DbgPacketOpCodeDbgBrk.toNat]
  | .DbgRunPacket => [DbgPacketOpCodeDbgRun.toNat]
  | .CpuRegRdPacket reg => [DbgPacketOpCodeCpuRegRd.toNat, reg.toNat]
  | .CpuRegWrPacket reg val => [DbgPacketOpCodeCpuRegWr.toNat, reg.toNat, val]
  | .QueryDbgBrkPacket => [DbgPacketOpCodeQueryDbgBrk.toNat]
  | .PpuMemRdPacket addr numBytes =>
      [DbgPacketOpCodePpuMemRd.toNat, loByte addr, hiByte addr, loByte numBytes, hiByte numBytes]
  | .PpuMemWrPacket addr numBytes pData =>
      [DbgPacketOpCodePpuMemWr.toNat, loByte addr, hiByte addr, loByte numBytes, hiByte numBytes]
        ++ pData
  | .PpuDisablePacket => [DbgPacketOpCodePpuDisable.toNat]
  | .CartSetCfgPacket pINesHeader => DbgPacketOpCodeCartSetCfg.toNat :: L.fields pINesHeader

/-- The inline `DbgPacket::PacketData`: it returns `m_pData`. -/
def DbgPacket.PacketData (L : CartCfgLayout) (p : DbgPacket) : List Nat := p.m_pData L

/-! ### Methods with an inline body in the header -/

/-- The inline `DbgBrkPacket::SizeInBytes`: `return 1`. -/
def DbgBrkPacket.SizeInBytes : Nat := UINT 1

/-- The inline `DbgBrkPacket::ReturnBytesExpected`: `return 0`. -/
def DbgBrkPacket.ReturnBytesExpected : Nat := UINT 0

/-- The inline `DbgRunPacket::SizeInBytes`: `return 1`. -/
def DbgRunPacket.SizeInBytes : Nat := UINT 1

/-- The inline `DbgRunPacket::ReturnBytesExpected`: `return 0`. -/
def DbgRunPacket.ReturnBytesExpected : Nat := UINT 0

/-- The inline `PpuDisablePacket::SizeInBytes`: `return 1`. -/
def PpuDisablePacket.SizeInBytes : Nat := UINT 1

/-- The inline `PpuDisablePacket::ReturnBytesExpected`: `return 0`. -/
def PpuDisablePacket.ReturnBytesExpected : Nat := UINT 0

/-- The inline `CartSetCfgPacket::ReturnBytesExpected`: `return 0`, whatever
header the object was built from. -/
def CartSetCfgPacket.ReturnBytesExpected (_pINesHeader : List Nat) : Nat := UINT 0

/-! ### Methods declared in the header and defined elsewhere -/

/-- Modelled from the spec: `EchoPacket::SizeInBytes`, not in the header; the
table gives `1+n`. -/
def EchoPacket.SizeInBytes (numBytes : Nat) : Nat := UINT (1 + numBytes)

/-- Modelled from the spec: `EchoPacket::ReturnBytesExpected`, not in the
header; the table gives `n`. -/
def EchoPacket.ReturnBytesExpected (numBytes : Nat) : Nat := UINT numBytes

/-- Modelled from the spec: `CpuMemRdPacket::SizeInBytes`, not in the header;
the table gives 5. -/
def CpuMemRdPacket.SizeInBytes : Nat := UINT 5

/-- Modelled from the spec: `CpuMemRdPacket::ReturnBytesExpected`, not in the
header; the table gives `count`. -/
def CpuMemRdPacket.ReturnBytesExpected (numBytes : Nat) : Nat := UINT numBytes

/-- Modelled from the spec: `CpuMemWrPacket::SizeInBytes`, not in the header;
the table gives `5+count`. -/
def CpuMemWrPacket.SizeInBytes (numBytes : Nat) : Nat := UINT (5 + numBytes)

/-- Modelled from the spec: `CpuMemWrPacket::ReturnBytesExpected`, not in the
header; the table gives 0. -/
def CpuMemWrPacket.ReturnBytesExpected : Nat := UINT 0

/-- Modelled from the spec: `CpuRegRdPacket::SizeInBytes`, not in the header;
the table gives 2. -/
def CpuRegRdPacket.SizeInBytes : Nat := UINT 2

/-- Modelled from the spec: `CpuRegRdPacket::ReturnBytesExpected`, not in the
header; the table gives 1. -/
def CpuRegRdPacket.ReturnBytesExpected : Nat := UINT 1

/-- Modelled from the spec: `CpuRegWrPacket::SizeInBytes`, not in the header;
the table gives 3. -/
def CpuRegWrPacket.SizeInBytes : Nat := UINT 3

/-- Modelled from the spec: `CpuRegWrPacket::ReturnBytesExpected`, not in the
header; the table gives 0. -/
def CpuRegWrPacket.ReturnBytesExpected : Nat := UINT 0

/-- Modelled from the spec: `QueryDbgBrkPacket::SizeInBytes`, not in the
header; the table gives 1. -/
def QueryDbgBrkPacket.SizeInBytes : Nat := UINT 1

/-- Modelled from the spec: `QueryDbgBrkPacket::ReturnBytesExpected`, not in
the header; the table gives 1. -/
def QueryDbgBrkPacket.ReturnBytesExpected : Nat := UINT 1

/-- Modelled from the spec: `PpuMemRdPacket::SizeInBytes`, not in the header;
the table gives 5. -/
def PpuMemRdPacket.SizeInBytes : Nat := UINT 5

/-- Modelled from the spec: `PpuMemRdPacket::ReturnBytesExpected`, not in the
header; the table gives `count`. -/
def PpuMemRdPacket.ReturnBytesExpected (numBytes : Nat) : Nat := UINT numBytes

/-- Modelled from the spec: `PpuMemWrPacket::SizeInBytes`, not in the header;
the table gives `5+count`. -/
def PpuMemWrPacket.SizeInBytes (numBytes : Nat) : Nat := UINT (5 + numBytes)

/-- Modelled from the spec: `PpuMemWrPacket::ReturnBytesExpected`, not in the
header; the table gives 0. -/
def PpuMemWrPacket.ReturnBytesExpected : Nat := UINT 0

/-- Modelled from the spec: `CartSetCfgPacket::SizeInBytes`, not in the header;
the table gives `1+k`. -/
def CartSetCfgPacket.SizeInBytes (L : CartCfgLayout) : Nat := UINT (1 + L.k)

/-! ### Virtual dispatch -/

/-- The virtual `SizeInBytes`: the call goes to the method of the object's class. -/
def DbgPacket.SizeInBytes (L : CartCfgLayout) : DbgPacket → Nat
  | .EchoPacket _ numBytes       => EchoPacket.SizeInBytes numBytes
  | .CpuMemRdPacket _ _          => CpuMemRdPacket.SizeInBytes
  | .CpuMemWrPacket _ numBytes _ => CpuMemWrPacket.SizeInBytes numBytes
  | .DbgBrkPacket                => DbgBrkPacket.SizeInBytes
  | .DbgRunPacket                => DbgRunPacket.SizeInBytes
  | .CpuRegRdPacket _            => CpuRegRdPacket.SizeInBytes
  | .CpuRegWrPacket _ _          => CpuRegWrPacket.SizeInBytes
  | .QueryDbgBrkPacket           => QueryDbgBrkPacket.SizeInBytes
  | .PpuMemRdPacket _ _          => PpuMemRdPacket.SizeInBytes
  | .PpuMemWrPacket _ numBytes _ => PpuMemWrPacket.SizeInBytes numBytes
  | .PpuDisablePacket            => PpuDisablePacket.SizeInBytes
  | .CartSetCfgPacket _          => CartSetCfgPacket.SizeInBytes L

/-- The virtual `ReturnBytesExpected`: the call goes to the method of the
object's class. -/
def DbgPacket.ReturnBytesExpected : DbgPacket → Nat
  | .EchoPacket _ numBytes       => EchoPacket.ReturnBytesExpected numBytes
  | .CpuMemRdPacket _ numBytes   => CpuMemRdPacket.ReturnBytesExpected numBytes
  | .CpuMemWrPacket _ _ _        => CpuMemWrPacket.ReturnBytesExpected
  | .DbgBrkPacket                => DbgBrkPacket.ReturnBytesExpected
  | .DbgRunPacket                => DbgRunPacket.ReturnBytesExpected
  | .CpuRegRdPacket _            => CpuRegRdPacket.ReturnBytesExpected
  | .CpuRegWrPacket _ _          => CpuRegWrPacket.ReturnBytesExpected
  | .QueryDbgBrkPacket           => QueryDbgBrkPacket.ReturnBytesExpected
  | .PpuMemRdPacket _ numBytes   => PpuMemRdPacket.ReturnBytesExpected numBytes
  | .PpuMemWrPacket _ _ _        => PpuMemWrPacket.ReturnBytesExpected
  | .PpuDisablePacket            => PpuDisablePacket.ReturnBytesExpected
  | .CartSetCfgPacket hdr        => CartSetCfgPacket.ReturnBytesExpected hdr

/-! ## Packet factory

`DbgPacket::CreateObjFromString` is declared in the header and defined
elsewhere.  The definitions of this section follow the factory contract of the
spec (section 4.4): a command line is `<mnemonic> [arg]*`, the tokens are
separated by white space, an argument is a decimal or `0x`-prefixed hexadecimal
numeral, and the factory answers with a packet or with a parse error. -/

/-- Modelled from the spec: the ways `CreateObjFromString` (not in the header)
can refuse a command text: unknown mnemonic, wrong argument count, unparseable
numeral, value out of field width; to which come the empty command line and the
mnemonic of an opcode that no packet class encodes. -/
inductive ParseError
  | EmptyCommand
  | UnknownMnemonic (token : List Char)
  | NoPacketClass (token : List Char)
  | WrongArgCount (token : List Char)
  | BadNumeral (token : List Char)
  | OutOfRange (token : List Char)
  deriving DecidableEq, Repr

/-- Modelled from the spec: splitting of a command text (a `TCHAR` string)
into its white-space delimited tokens, for `CreateObjFromString`, which is not
in the header.  `cur` is the token being read, last character first. -/
def tokenizeAux : List Char → List Char → List (List Char)
  | [], cur => if cur = [] then [] else [cur.reverse]
  | c :: cs, cur =>
      if c.isWhitespace then
        if cur = [] then tokenizeAux cs [] else cur.reverse :: tokenizeAux cs []
      else tokenizeAux cs (c :: cur)

/-- Modelled from the spec: the tokens of a command text, for
`CreateObjFromString`, which is not in the header. -/
def tokenize (pString : List Char) : List (List Char) := tokenizeAux pString []

/-- Modelled from the spec: the value of a decimal digit of an argument of
`CreateObjFromString`, which is not in the header. -/
def decDigit (c : Char) : Option Nat :=
  if c.isDigit then some (c.toNat - 48) else none

/-- Modelled from the spec: the value of a hexadecimal digit, either case, of an
argument of `CreateObjFromString`, which is not in the header. -/
def hexDigit (c : Char) : Option Nat :=
  if c.isDigit then some (c.toNat - 48)
  else if 97 ≤ c.toNat ∧ c.toNat ≤ 102 then some (c.toNat - 87)
  else if 65 ≤ c.toNat ∧ c.toNat ≤ 70 then some (c.toNat - 55)
  else none

/-- Modelled from the spec: the value of a digit string in the given base, most
significant digit first, for `CreateObjFromString`, which is not in the header. -/
def digitsValue (base : Nat) (digit : Char → Option Nat) : List Char → Nat → Option Nat
  | [], acc => some acc
  | c :: cs, acc =>
      match digit c with
      | none => none
      | some d => digitsValue base digit cs (acc * base + d)

/-- Modelled from the spec: the value of an argument token of
`CreateObjFromString` (not in the header), "decimal or `0x`-prefixed hex". -/
def parseNumeral : List Char → Option Nat
  | [] => none
  | c :: cs =>
      if c = '0' then
        match cs with
        | [] => some 0
        | x :: ds =>
            if x = 'x' then
              (if ds = [] then none else digitsValue 16 hexDigit ds 0)
            else digitsValue 10 decDigit (c :: x :: ds) 0
      else digitsValue 10 decDigit (c :: cs) 0

/-- Modelled from the spec: the values of all argument tokens of a command, or
the first token that is no numeral; for `CreateObjFromString`, which is not in
the header. -/
def parseArgs : List (List Char) → Except ParseError (List Nat)
  | [] => .ok []
  | t :: ts =>
      match parseNumeral t with
      | none => .error (.BadNumeral t)
      | some v =>
          match parseArgs ts with
          | .error e => .error e
          | .ok vs => .ok (v :: vs)

/-- Modelled from the spec: the register a numeric argument of
`CreateObjFromString` (not in the header) names, if it is one of the seven
identifiers of `CpuReg`. -/
def CpuReg.ofId : Nat → Option CpuReg
  | 0 => some CpuRegPcl
  | 1 => some CpuRegPch
  | 2 => some CpuRegAc
  | 3 => some CpuRegX
  | 4 => some CpuRegY
  | 5 => some CpuRegP
  | 6 => some CpuRegS
  | _ => none

/-- The packet class named after an opcode, if the header declares one:
`DbgPacketOpCodeQueryErrCode` has none. -/
def PacketClass.ofOpCode : DbgPacketOpCode → Option PacketClass
  | DbgPacketOpCodeEcho         => some .EchoPacket
  | DbgPacketOpCodeCpuMemRd     => some .CpuMemRdPacket
  | DbgPacketOpCodeCpuMemWr     => some .CpuMemWrPacket
  | DbgPacketOpCodeDbgBrk       => some .DbgBrkPacket
  | DbgPacketOpCodeDbgRun       => some .DbgRunPacket
  | DbgPacketOpCodeCpuRegRd     => some .CpuRegRdPacket
  | DbgPacketOpCodeCpuRegWr     => some .CpuRegWrPacket
  | DbgPacketOpCodeQueryDbgBrk  => some .QueryDbgBrkPacket
  | DbgPacketOpCodeQueryErrCode => none
  | DbgPacketOpCodePpuMemRd     => some .PpuMemRdPacket
  | DbgPacketOpCodePpuMemWr     => some .PpuMemWrPacket
  | DbgPacketOpCodePpuDisable   => some .PpuDisablePacket
  | DbgPacketOpCodeCartSetCfg   => some .CartSetCfgPacket

/-- Modelled from the spec: the step of `CreateObjFromString` (not in the
header) that "validates argument count and numeric ranges against the variant's
parameter contract, and constructs the matching variant".  `m` is the mnemonic
token, `vals` the argument values, in the order of the parameter column of the
table of section 4.3. -/
def construct (m : List Char) (c : PacketClass) (vals : List Nat) :
    Except ParseError DbgPacket :=
  match c with
  | .EchoPacket =>
      if vals.length < 2 ^ 16 ∧ allBytes vals then .ok (.EchoPacket vals vals.length)
      else .error (.OutOfRange m)
  | .CpuMemRdPacket =>
      match vals with
      | [addr, count] =>
          if addr < 2 ^ 16 ∧ count < 2 ^ 16 then .ok (.CpuMemRdPacket addr count)
          else .error (.OutOfRange m)
      | _ => .error (.WrongArgCount m)
  | .CpuMemWrPacket =>
      match vals with
      | addr :: count :: data =>
          if data.length ≠ count then .error (.WrongArgCount m)
          else if addr < 2 ^ 16 ∧ count < 2 ^ 16 ∧ allBytes data then
            .ok (.CpuMemWrPacket addr count data)
          else .error (.OutOfRange m)
      | _ => .error (.WrongArgCount m)
  | .DbgBrkPacket =>
      match vals with
      | [] => .ok .DbgBrkPacket
      | _ => .error (.WrongArgCount m)
  | .DbgRunPacket =>
      match vals with
      | [] => .ok .DbgRunPacket
      | _ => .error (.WrongArgCount m)
  | .CpuRegRdPacket =>
      match vals with
      | [r] =>
          match CpuReg.ofId r with
          | some reg => .ok (.CpuRegRdPacket reg)
          | none => .error (.OutOfRange m)
      | _ => .error (.WrongArgCount m)
  | .CpuRegWrPacket =>
      match vals with
      | [r, val] =>
          match CpuReg.ofId r with
          | some reg =>
              if val < 2 ^ 8 then .ok (.CpuRegWrPacket reg val) else .error (.OutOfRange m)
          | none => .error (.OutOfRange m)
      | _ => .error (.WrongArgCount m)
  | .QueryDbgBrkPacket =>
      match vals with
      | [] => .ok .QueryDbgBrkPacket
      | _ => .error (.WrongArgCount m)
  | .PpuMemRdPacket =>
      match vals with
      | [addr, count] =>
          if addr < 2 ^ 16 ∧ count < 2 ^ 16 then .ok (.PpuMemRdPacket addr count)
          else .error (.OutOfRange m)
      | _ => .error (.WrongArgCount m)
  | .PpuMemWrPacket =>
      match vals with
      | addr :: count :: data =>
          if data.length ≠ count then .error (.WrongArgCount m)
          else if addr < 2 ^ 16 ∧ count < 2 ^ 16 ∧ allBytes data then
            .ok (.PpuMemWrPacket addr count data)
          else .error (.OutOfRange m)
      | _ => .error (.WrongArgCount m)
  | .PpuDisablePacket =>
      match vals with
      | [] => .ok .PpuDisablePacket
      | _ => .error (.WrongArgCount m)
  | .CartSetCfgPacket =>
      if vals.length ≠ 16 then .error (.WrongArgCount m)
      else if allBytes vals then .ok (.CartSetCfgPacket vals)
      else .error (.OutOfRange m)

/-- Modelled from the spec: `DbgPacket::CreateObjFromString`, declared in the
header and defined elsewhere.  It follows the contract `parse(command_text) ->
Packet | ParseError` of section 4.4: tokens, mnemonic to opcode, opcode to
packet class, numerals, then argument count and ranges.  The spec does not
spell the mnemonics, so the mnemonic table `mnemonics` is a parameter. -/
def DbgPacket.CreateObjFromString (mnemonics : List Char → Option DbgPacketOpCode)
    (pString : List Char) : Except ParseError DbgPacket :=
  match tokenize pString with
  | [] => .error .EmptyCommand
  | m :: args =>
      match mnemonics m with
      | none => .error (.UnknownMnemonic m)
      | some op =>
          match PacketClass.ofOpCode op with
          | none => .error (.NoPacketClass m)
          | some c =>
              match parseArgs args with
              | .error e => .error e
              | .ok vals => construct m c vals

/-- The catalog entry of the mnemonic of a command text: the opcode the
mnemonic table gives for the first token, if there is a first token and the
table knows it. -/
def commandOpCode (mnemonics : List Char → Option DbgPacketOpCode)
    (pString : List Char) : Option DbgPacketOpCode :=
  (tokenize pString).head?.bind mnemonics

/-- The argument tokens of a command text: all tokens after the mnemonic. -/
def commandArgs (pString : List Char) : List (List Char) := (tokenize pString).tail

/-- Modelled from the spec: the argument count of a command is wrong for a
packet class, by the parameter column of the table of section 4.3.  A class
with fixed parameters wants exactly that many arguments; a memory write wants
`addr`, `count` and then `count` data bytes; an echo takes any number of data
bytes; a cartridge configuration wants the 16 header bytes. -/
def PacketClass.wrongArgCount (c : PacketClass) (args : List (List Char)) : Bool :=
  match c with
  | .EchoPacket => false
  | .CpuMemRdPacket | .PpuMemRdPacket => args.length != 2
  | .CpuMemWrPacket | .PpuMemWrPacket =>
      match args with
      | _ :: n :: data =>
          match parseNumeral n with
          | some count => data.length != count
          | none => false
      | _ => true
  | .DbgBrkPacket | .DbgRunPacket | .QueryDbgBrkPacket | .PpuDisablePacket =>
      args.length != 0
  | .CpuRegRdPacket => args.length != 1
  | .CpuRegWrPacket => args.length != 2
  | .CartSetCfgPacket => args.length != 16

/-- A sample mnemonic table: the lower-case opcode names. -/
def sampleMnemonics (m : List Char) : Option DbgPacketOpCode :=
  ([ ("echo", DbgPacketOpCodeEcho), ("cpumemrd", DbgPacketOpCodeCpuMemRd),
     ("cpumemwr", DbgPacketOpCodeCpuMemWr), ("dbgbrk", DbgPacketOpCodeDbgBrk),
     ("dbgrun", DbgPacketOpCodeDbgRun), ("cpuregrd", DbgPacketOpCodeCpuRegRd),
     ("cpuregwr", DbgPacketOpCodeCpuRegWr), ("querydbgbrk", DbgPacketOpCodeQueryDbgBrk),
     ("queryerrcode", DbgPacketOpCodeQueryErrCode), ("ppumemrd", DbgPacketOpCodePpuMemRd),
     ("ppumemwr", DbgPacketOpCodePpuMemWr), ("ppudisable", DbgPacketOpCodePpuDisable),
     ("cartsetcfg", DbgPacketOpCodeCartSetCfg) ].find?
    (fun e => e.1.toList == m)).map Prod.snd

/-! ## Theorems -/

/-- C1: the opcode catalog has exactly 13 members (the listed ones, each once),
their values are pairwise distinct, are exactly the integers 0x00 .. 0x0C in
declaration order with no gap, each fits in 8 bits, and every enumerator has the
value the catalog assigns to it. -/
theorem opcode_catalog :
    Fintype.card DbgPacketOpCode = 13
    ∧ (∀ op : DbgPacketOpCode, op ∈ DbgPacketOpCode.members)
    ∧ DbgPacketOpCode.members.Nodup
    ∧ Function.Injective DbgPacketOpCode.toNat
    ∧ DbgPacketOpCode.members.map DbgPacketOpCode.toNat = List.range 13
    ∧ (∀ n : Nat, (∃ op : DbgPacketOpCode, op.toNat = n) ↔ n ≤ 0x0C)
    ∧ (∀ op : DbgPacketOpCode, op.toNat < 2 ^ 8)
    ∧ DbgPacketOpCodeEcho.toNat = 0x00
    ∧ DbgPacketOpCodeCpuMemRd.toNat = 0x01
    ∧ DbgPacketOpCodeCpuMemWr.toNat = 0x02
    ∧ DbgPacketOpCodeDbgBrk.toNat = 0x03
    ∧ DbgPacketOpCodeDbgRun.toNat = 0x04
    ∧ DbgPacketOpCodeCpuRegRd.toNat = 0x05
    ∧ DbgPacketOpCodeCpuRegWr.toNat = 0x06
    ∧ DbgPacketOpCodeQueryDbgBrk.toNat = 0x07
    ∧ DbgPacketOpCodeQueryErrCode.toNat = 0x08
    ∧ DbgPacketOpCodePpuMemRd.toNat = 0x09
    ∧ DbgPacketOpCodePpuMemWr.toNat = 0x0A
    ∧ DbgPacketOpCodePpuDisable.toNat = 0x0B
    ∧ DbgPacketOpCodeCartSetCfg.toNat = 0x0C := by
  refine ⟨rfl, ?_, by decide, ?_, rfl, ?_, ?_, rfl, rfl, rfl, rfl, rfl, rfl, rfl, rfl, rfl,
    rfl, rfl, rfl, rfl⟩
  · intro op; cases op <;> decide
  · intro a b h; cases a <;> cases b <;> first | rfl | exact absurd h (by decide)
  · intro n
    constructor
    · rintro ⟨op, rfl⟩; cases op <;> decide
    · intro h
      have h13 : n < 13 := by omega
      interval_cases n
      · exact ⟨DbgPacketOpCodeEcho, rfl⟩
      · exact ⟨DbgPacketOpCodeCpuMemRd, rfl⟩
      · exact ⟨DbgPacketOpCodeCpuMemWr, rfl⟩
      · exact ⟨DbgPacketOpCodeDbgBrk, rfl⟩
      · exact ⟨DbgPacketOpCodeDbgRun, rfl⟩
      · exact ⟨DbgPacketOpCodeCpuRegRd, rfl⟩
      · exact ⟨DbgPacketOpCodeCpuRegWr, rfl⟩
      · exact ⟨DbgPacketOpCodeQueryDbgBrk, rfl⟩
      · exact ⟨DbgPacketOpCodeQueryErrCode, rfl⟩
      · exact ⟨DbgPacketOpCodePpuMemRd, rfl⟩
      · exact ⟨DbgPacketOpCodePpuMemWr, rfl⟩
      · exact ⟨DbgPacketOpCodePpuDisable, rfl⟩
      · exact ⟨DbgPacketOpCodeCartSetCfg, rfl⟩
  · intro op; cases op <;> decide

/-- C2: the register enum has exactly 7 members (the listed ones, each once),
their values are pairwise distinct, are exactly 0 .. 6, and are assigned in the
order PCL=0, PCH=1, AC=2, X=3, Y=4, P=5, S=6. -/
theorem cpureg_catalog :
    Fintype.card CpuReg = 7
    ∧ (∀ r : CpuReg, r ∈ CpuReg.members)
    ∧ CpuReg.members.Nodup
    ∧ Function.Injective CpuReg.toNat
    ∧ CpuReg.members.map CpuReg.toNat = List.range 7
    ∧ (∀ n : Nat, (∃ r : CpuReg, r.toNat = n) ↔ n ≤ 6)
    ∧ CpuRegPcl.toNat = 0
    ∧ CpuRegPch.toNat = 1
    ∧ CpuRegAc.toNat = 2
    ∧ CpuRegX.toNat = 3
    ∧ CpuRegY.toNat = 4
    ∧ CpuRegP.toNat = 5
    ∧ CpuRegS.toNat = 6 := by
  refine ⟨rfl, ?_, by decide, ?_, rfl, ?_, rfl, rfl, rfl, rfl, rfl, rfl, rfl⟩
  · intro r; cases r <;> decide
  · intro a b h; cases a <;> cases b <;> first | rfl | exact absurd h (by decide)
  · intro n
    constructor
    · rintro ⟨r, rfl⟩; cases r <;> decide
    · intro h
      have h7 : n < 7 := by omega
      interval_cases n
      · exact ⟨CpuRegPcl, rfl⟩
      · exact ⟨CpuRegPch, rfl⟩
      · exact ⟨CpuRegAc, rfl⟩
      · exact ⟨CpuRegX, rfl⟩
      · exact ⟨CpuRegY, rfl⟩
      · exact ⟨CpuRegP, rfl⟩
      · exact ⟨CpuRegS, rfl⟩

/-- C3: each of the three parameterless command packets `DbgBrkPacket`,
`DbgRunPacket` and `PpuDisablePacket` reports `SizeInBytes() = 1` and
`ReturnBytesExpected() = 0`, both through its own method and through the
virtual call on the object. -/
theorem parameterless_size_and_reply (L : CartCfgLayout) :
    DbgBrkPacket.SizeInBytes = 1 ∧ DbgBrkPacket.ReturnBytesExpected = 0
    ∧ DbgRunPacket.SizeInBytes = 1 ∧ DbgRunPacket.ReturnBytesExpected = 0
    ∧ PpuDisablePacket.SizeInBytes = 1 ∧ PpuDisablePacket.ReturnBytesExpected = 0
    ∧ DbgPacket.DbgBrkPacket.SizeInBytes L = 1
    ∧ DbgPacket.DbgBrkPacket.ReturnBytesExpected = 0
    ∧ DbgPacket.DbgRunPacket.SizeInBytes L = 1
    ∧ DbgPacket.DbgRunPacket.ReturnBytesExpected = 0
    ∧ DbgPacket.PpuDisablePacket.SizeInBytes L = 1
    ∧ DbgPacket.PpuDisablePacket.ReturnBytesExpected = 0 :=
  ⟨rfl, rfl, rfl, rfl, rfl, rfl, rfl, rfl, rfl, rfl, rfl, rfl⟩

/-- C4: for every 16-byte iNES header handed to `CartSetCfgPacket`,
`ReturnBytesExpected()` is 0. -/
theorem cartSetCfg_reply_zero (pINesHeader : List Nat) (h : pINesHeader.length = 16) :
    (DbgPacket.CartSetCfgPacket pINesHeader).ReturnBytesExpected = 0 := by
  have _ := h
  rfl

/-- Witness of C4: the header of a 32 KiB PRG, 8 KiB CHR, mapper 0 cartridge. -/
theorem cartSetCfg_reply_zero_witness :
    [0x4E, 0x45, 0x53, 0x1A, 2, 1, 1, 0, 0, 0, 0, 0, 0, 0, 0, 0].length = 16
    ∧ (DbgPacket.CartSetCfgPacket
        [0x4E, 0x45, 0x53, 0x1A, 2, 1, 1, 0, 0, 0, 0, 0, 0, 0, 0, 0]).ReturnBytesExpected = 0 :=
  ⟨by decide, cartSetCfg_reply_zero _ (by decide)⟩

/-- C5: for every packet class and every well-typed argument list, the buffer
returned by `PacketData()` has length `SizeInBytes()`, that length is at least
1, and the first byte is the value of the opcode named after the class; in
particular `DbgBrkPacket` encodes to exactly `[0x03]`. -/
theorem packetData_length_and_opcode (L : CartCfgLayout) (p : DbgPacket)
    (h : p.WellTyped) :
    (p.PacketData L).length = p.SizeInBytes L
    ∧ 1 ≤ p.SizeInBytes L
    ∧ (p.PacketData L).head? = some p.cls.opCode.toNat
    ∧ DbgPacket.DbgBrkPacket.PacketData L = [0x03] := by
  refine ⟨?_, ?_, ?_, rfl⟩
  · cases p
    case EchoPacket d n =>
      obtain ⟨hn, hd, _⟩ := h
      simp only [DbgPacket.PacketData, DbgPacket.m_pData, DbgPacket.SizeInBytes,
        EchoPacket.SizeInBytes, UINT, List.length_cons]
      omega
    case CpuMemWrPacket a n d =>
      obtain ⟨_, hn, hd, _⟩ := h
      simp only [DbgPacket.PacketData, DbgPacket.m_pData, DbgPacket.SizeInBytes,
        CpuMemWrPacket.SizeInBytes, UINT, List.length_cons, List.length_append,
        List.length_nil]
      omega
    case PpuMemWrPacket a n d =>
      obtain ⟨_, hn, hd, _⟩ := h
      simp only [DbgPacket.PacketData, DbgPacket.m_pData, DbgPacket.SizeInBytes,
        PpuMemWrPacket.SizeInBytes, UINT, List.length_cons, List.length_append,
        List.length_nil]
      omega
    case CartSetCfgPacket hdr =>
      have hk := L.fields_length hdr h.1
      have hfit := L.size_fits
      simp only [DbgPacket.PacketData, DbgPacket.m_pData, DbgPacket.SizeInBytes,
        CartSetCfgPacket.SizeInBytes, UINT, List.length_cons]
      omega
    all_goals rfl
  · cases p
    case EchoPacket d n =>
      obtain ⟨hn, _, _⟩ := h
      simp only [DbgPacket.SizeInBytes, EchoPacket.SizeInBytes, UINT]
      omega
    case CpuMemWrPacket a n d =>
      obtain ⟨_, hn, _, _⟩ := h
      simp only [DbgPacket.SizeInBytes, CpuMemWrPacket.SizeInBytes, UINT]
      omega
    case PpuMemWrPacket a n d =>
      obtain ⟨_, hn, _, _⟩ := h
      simp only [DbgPacket.SizeInBytes, PpuMemWrPacket.SizeInBytes, UINT]
      omega
    case CartSetCfgPacket hdr =>
      have hfit := L.size_fits
      simp only [DbgPacket.SizeInBytes, CartSetCfgPacket.SizeInBytes, UINT]
      omega
    all_goals
      simp only [DbgPacket.SizeInBytes, CpuMemRdPacket.SizeInBytes, DbgBrkPacket.SizeInBytes,
        DbgRunPacket.SizeInBytes, CpuRegRdPacket.SizeInBytes, CpuRegWrPacket.SizeInBytes,
        QueryDbgBrkPacket.SizeInBytes, PpuMemRdPacket.SizeInBytes,
        PpuDisablePacket.SizeInBytes, UINT]
      decide
  · cases p <;> rfl

/-- Witness of C5: the echo packet of the three bytes 0x10, 0x20, 0x30. -/
theorem packetData_length_and_opcode_witness :
    (DbgPacket.EchoPacket [0x10, 0x20, 0x30] 3).WellTyped
    ∧ ((DbgPacket.EchoPacket [0x10, 0x20, 0x30] 3).PacketData sampleLayout).length
        = (DbgPacket.EchoPacket [0x10, 0x20, 0x30] 3).SizeInBytes sampleLayout
    ∧ 1 ≤ (DbgPacket.EchoPacket [0x10, 0x20, 0x30] 3).SizeInBytes sampleLayout
    ∧ ((DbgPacket.EchoPacket [0x10, 0x20, 0x30] 3).PacketData sampleLayout).head?
        = some (DbgPacket.EchoPacket [0x10, 0x20, 0x30] 3).cls.opCode.toNat
    ∧ DbgPacket.DbgBrkPacket.PacketData sampleLayout = [0x03] :=
  ⟨by decide, packetData_length_and_opcode sampleLayout _ (by decide)⟩

/-- C6: for every 16-bit `addr` and 16-bit `count` (zero and 0xFFFF included),
`CpuMemRdPacket(addr, count)` has `SizeInBytes() = 5`, `ReturnBytesExpected() =
count` and the bytes `[0x01, addr mod 256, addr div 256, count mod 256, count
div 256]`. -/
theorem cpuMemRd_layout (L : CartCfgLayout) (addr count : Nat)
    (haddr : addr < 2 ^ 16) (hcount : count < 2 ^ 16) :
    (DbgPacket.CpuMemRdPacket addr count).SizeInBytes L = 5
    ∧ (DbgPacket.CpuMemRdPacket addr count).ReturnBytesExpected = count
    ∧ (DbgPacket.CpuMemRdPacket addr count).PacketData L
        = [0x01, addr % 256, addr / 256, count % 256, count / 256] := by
  refine ⟨rfl, ?_, ?_⟩
  · simp only [DbgPacket.ReturnBytesExpected, CpuMemRdPacket.ReturnBytesExpected, UINT]
    omega
  · have ha : addr / 256 % 256 = addr / 256 := by omega
    have hc : count / 256 % 256 = count / 256 := by omega
    simp only [DbgPacket.PacketData, DbgPacket.m_pData, loByte, hiByte, ha, hc,
      DbgPacketOpCode.toNat]

/-- Witness of C6: `addr = 0x1234`, `count = 4` gives the five bytes
`[0x01, 0x34, 0x12, 0x04, 0x00]` and a reply of 4 bytes. -/
theorem cpuMemRd_layout_witness :
    (0x1234 < 2 ^ 16 ∧ 4 < 2 ^ 16)
    ∧ (DbgPacket.CpuMemRdPacket 0x1234 4).SizeInBytes sampleLayout = 5
    ∧ (DbgPacket.CpuMemRdPacket 0x1234 4).ReturnBytesExpected = 4
    ∧ (DbgPacket.CpuMemRdPacket 0x1234 4).PacketData sampleLayout
        = [0x01, 0x34, 0x12, 0x04, 0x00] :=
  ⟨by decide, cpuMemRd_layout sampleLayout 0x1234 4 (by decide) (by decide)⟩

/-- The boundary cases of the memory-read layout: a count of zero gives a
5-byte packet with no reply, and the 16-bit maximum fills both bytes of each
field. -/
theorem cpuMemRd_boundaries :
    (DbgPacket.CpuMemRdPacket 0x1234 0).SizeInBytes sampleLayout = 5
    ∧ (DbgPacket.CpuMemRdPacket 0x1234 0).ReturnBytesExpected = 0
    ∧ (DbgPacket.CpuMemRdPacket 0xFFFF 0xFFFF).SizeInBytes sampleLayout = 5
    ∧ (DbgPacket.CpuMemRdPacket 0xFFFF 0xFFFF).ReturnBytesExpected = 0xFFFF
    ∧ (DbgPacket.CpuMemRdPacket 0xFFFF 0xFFFF).PacketData sampleLayout
        = [0x01, 0xFF, 0xFF, 0xFF, 0xFF] :=
  ⟨rfl, rfl, rfl, rfl, rfl⟩

/-- C7: for every 16-bit `addr`, every 16-bit `count` and every data sequence
of length `count`, `CpuMemWrPacket(addr, count, data)` has `SizeInBytes() = 5 +
count`, a sum below `2^32` so that the 32-bit result does not wrap,
`ReturnBytesExpected() = 0`, and the bytes `[0x02, addr mod 256, addr div 256,
count mod 256, count div 256]` followed by `data` unchanged and in order. -/
theorem cpuMemWr_layout (L : CartCfgLayout) (addr count : Nat) (data : List Nat)
    (haddr : addr < 2 ^ 16) (hcount : count < 2 ^ 16) (hdata : data.length = count) :
    (DbgPacket.CpuMemWrPacket addr count data).SizeInBytes L = 5 + count
    ∧ 5 + count < 2 ^ 32
    ∧ (DbgPacket.CpuMemWrPacket addr count data).ReturnBytesExpected = 0
    ∧ (DbgPacket.CpuMemWrPacket addr count data).PacketData L
        = [0x02, addr % 256, addr / 256, count % 256, count / 256] ++ data
    ∧ ((DbgPacket.CpuMemWrPacket addr count data).PacketData L).length = 5 + count := by
  have ha : addr / 256 % 256 = addr / 256 := by omega
  have hc : count / 256 % 256 = count / 256 := by omega
  refine ⟨?_, by omega, rfl, ?_, ?_⟩
  · simp only [DbgPacket.SizeInBytes, CpuMemWrPacket.SizeInBytes, UINT]
    omega
  · simp only [DbgPacket.PacketData, DbgPacket.m_pData, loByte, hiByte, ha, hc,
      DbgPacketOpCode.toNat]
  · simp only [DbgPacket.PacketData, DbgPacket.m_pData, List.length_append,
      List.length_cons, List.length_nil, hdata, Nat.add_comm]

/-- Witness of C7: `addr = 0x0200`, `count = 3`, `data = [0xAA, 0xBB, 0xCC]`
gives `[0x02, 0x00, 0x02, 0x03, 0x00, 0xAA, 0xBB, 0xCC]` with size 8. -/
theorem cpuMemWr_layout_witness :
    (0x0200 < 2 ^ 16 ∧ 3 < 2 ^ 16 ∧ [0xAA, 0xBB, 0xCC].length = 3)
    ∧ (DbgPacket.CpuMemWrPacket 0x0200 3 [0xAA, 0xBB, 0xCC]).SizeInBytes sampleLayout = 8
    ∧ 5 + 3 < 2 ^ 32
    ∧ (DbgPacket.CpuMemWrPacket 0x0200 3 [0xAA, 0xBB, 0xCC]).ReturnBytesExpected = 0
    ∧ (DbgPacket.CpuMemWrPacket 0x0200 3 [0xAA, 0xBB, 0xCC]).PacketData sampleLayout
        = [0x02, 0x00, 0x02, 0x03, 0x00, 0xAA, 0xBB, 0xCC]
    ∧ ((DbgPacket.CpuMemWrPacket 0x0200 3 [0xAA, 0xBB, 0xCC]).PacketData sampleLayout).length
        = 8 :=
  ⟨by decide,
    cpuMemWr_layout sampleLayout 0x0200 3 [0xAA, 0xBB, 0xCC] (by decide) (by decide) rfl⟩

/-- C8: for every register `reg` of `CpuReg`, `CpuRegRdPacket(reg)` has
`SizeInBytes() = 2`, `ReturnBytesExpected() = 1` and the bytes `[0x05, numeric
id of reg]`; `CpuRegRd(CpuRegAc)` encodes to `[0x05, 0x02]`. -/
theorem cpuRegRd_layout (L : CartCfgLayout) (reg : CpuReg) :
    (DbgPacket.CpuRegRdPacket reg).SizeInBytes L = 2
    ∧ (DbgPacket.CpuRegRdPacket reg).ReturnBytesExpected = 1
    ∧ (DbgPacket.CpuRegRdPacket reg).PacketData L = [0x05, reg.toNat]
    ∧ (DbgPacket.CpuRegRdPacket CpuRegAc).PacketData L = [0x05, 0x02] :=
  ⟨rfl, rfl, rfl, rfl⟩

/-- C10: there are exactly 12 concrete packet classes (the listed ones, each
once, every one of them constructible); the map sending a class to the opcode
of the same name is injective, and an opcode is in its image exactly when it is
not `DbgPacketOpCodeQueryErrCode` (0x08). -/
theorem packet_classes_and_opcodes :
    Fintype.card PacketClass = 12
    ∧ (∀ c : PacketClass, c ∈ PacketClass.members)
    ∧ PacketClass.members.Nodup
    ∧ (∀ c : PacketClass, ∃ p : DbgPacket, p.cls = c)
    ∧ Function.Injective PacketClass.opCode
    ∧ (∀ op : DbgPacketOpCode,
        (∃ c : PacketClass, c.opCode = op) ↔ op ≠ DbgPacketOpCodeQueryErrCode)
    ∧ DbgPacketOpCodeQueryErrCode.toNat = 0x08 := by
  refine ⟨rfl, ?_, by decide, ?_, ?_, ?_, rfl⟩
  · intro c; cases c <;> decide
  · intro c
    cases c
    · exact ⟨.EchoPacket [] 0, rfl⟩
    · exact ⟨.CpuMemRdPacket 0 0, rfl⟩
    · exact ⟨.CpuMemWrPacket 0 0 [], rfl⟩
    · exact ⟨.DbgBrkPacket, rfl⟩
    · exact ⟨.DbgRunPacket, rfl⟩
    · exact ⟨.CpuRegRdPacket CpuRegPcl, rfl⟩
    · exact ⟨.CpuRegWrPacket CpuRegPcl 0, rfl⟩
    · exact ⟨.QueryDbgBrkPacket, rfl⟩
    · exact ⟨.PpuMemRdPacket 0 0, rfl⟩
    · exact ⟨.PpuMemWrPacket 0 0 [], rfl⟩
    · exact ⟨.PpuDisablePacket, rfl⟩
    · exact ⟨.CartSetCfgPacket (List.replicate 16 0), rfl⟩
  · intro a b h; cases a <;> cases b <;> first | rfl | exact absurd h (by decide)
  · intro op
    constructor
    · rintro ⟨c, rfl⟩; cases c <;> decide
    · intro h
      cases op
      case DbgPacketOpCodeQueryErrCode => exact absurd rfl h
      case DbgPacketOpCodeEcho => exact ⟨.EchoPacket, rfl⟩
      case DbgPacketOpCodeCpuMemRd => exact ⟨.CpuMemRdPacket, rfl⟩
      case DbgPacketOpCodeCpuMemWr => exact ⟨.CpuMemWrPacket, rfl⟩
      case DbgPacketOpCodeDbgBrk => exact ⟨.DbgBrkPacket, rfl⟩
      case DbgPacketOpCodeDbgRun => exact ⟨.DbgRunPacket, rfl⟩
      case DbgPacketOpCodeCpuRegRd => exact ⟨.CpuRegRdPacket, rfl⟩
      case DbgPacketOpCodeCpuRegWr => exact ⟨.CpuRegWrPacket, rfl⟩
      case DbgPacketOpCodeQueryDbgBrk => exact ⟨.QueryDbgBrkPacket, rfl⟩
      case DbgPacketOpCodePpuMemRd => exact ⟨.PpuMemRdPacket, rfl⟩
      case DbgPacketOpCodePpuMemWr => exact ⟨.PpuMemWrPacket, rfl⟩
      case DbgPacketOpCodePpuDisable => exact ⟨.PpuDisablePacket, rfl⟩
      case DbgPacketOpCodeCartSetCfg => exact ⟨.CartSetCfgPacket, rfl⟩

/-! ### Packet factory -/

/-- A successful `parseArgs` splits along the argument list. -/
theorem parseArgs_cons_ok (t : List Char) (ts : List (List Char)) (vals : List Nat)
    (h : parseArgs (t :: ts) = .ok vals) :
    ∃ v vs, vals = v :: vs ∧ parseNumeral t = some v ∧ parseArgs ts = .ok vs := by
  unfold parseArgs at h
  cases hn : parseNumeral t with
  | none => simp [hn] at h
  | some v =>
    cases hr : parseArgs ts with
    | error e => simp [hn, hr] at h
    | ok vs =>
      simp only [hn, hr, Except.ok.injEq] at h
      exact ⟨v, vs, h.symm, rfl, rfl⟩

/-- A successful `parseArgs` yields one value per argument token. -/
theorem parseArgs_length (args : List (List Char)) (vals : List Nat)
    (h : parseArgs args = .ok vals) : vals.length = args.length := by
  induction args generalizing vals with
  | nil =>
    unfold parseArgs at h
    simp only [Except.ok.injEq] at h
    subst h; rfl
  | cons t ts ih =>
    obtain ⟨v, vs, rfl, _, hvs⟩ := parseArgs_cons_ok t ts vals h
    simp [ih vs hvs]

/-- Once the numerals are read, `construct` refuses every argument list whose
count is wrong for the class. -/
theorem construct_wrongArgCount (m : List Char) (c : PacketClass)
    (args : List (List Char)) (vals : List Nat)
    (hp : parseArgs args = .ok vals) (hw : c.wrongArgCount args = true) :
    ∃ e, construct m c vals = .error e := by
  have hlen := parseArgs_length args vals hp
  cases c
  case EchoPacket => simp [PacketClass.wrongArgCount] at hw
  case CpuMemRdPacket =>
    simp only [PacketClass.wrongArgCount, bne_iff_ne, ne_eq] at hw
    rcases vals with _ | ⟨a, _ | ⟨b, _ | ⟨c, t⟩⟩⟩
    · exact ⟨_, rfl⟩
    · exact ⟨_, rfl⟩
    · exact absurd hlen.symm hw
    · exact ⟨_, rfl⟩
  case PpuMemRdPacket =>
    simp only [PacketClass.wrongArgCount, bne_iff_ne, ne_eq] at hw
    rcases vals with _ | ⟨a, _ | ⟨b, _ | ⟨c, t⟩⟩⟩
    · exact ⟨_, rfl⟩
    · exact ⟨_, rfl⟩
    · exact absurd hlen.symm hw
    · exact ⟨_, rfl⟩
  case CpuMemWrPacket =>
    rcases args with _ | ⟨a, _ | ⟨n, data⟩⟩
    · cases vals with
      | nil => exact ⟨_, rfl⟩
      | cons v vs => simp at hlen
    · obtain ⟨v, vs, rfl, _, hvs⟩ := parseArgs_cons_ok _ _ _ hp
      have hvs0 := parseArgs_length _ _ hvs
      cases vs with
      | nil => exact ⟨_, rfl⟩
      | cons w ws => simp at hvs0
    · obtain ⟨v, vs, rfl, _, hvs⟩ := parseArgs_cons_ok _ _ _ hp
      obtain ⟨k, ws, rfl, hk, hws⟩ := parseArgs_cons_ok _ _ _ hvs
      have hwl := parseArgs_length _ _ hws
      simp only [PacketClass.wrongArgCount, hk, bne_iff_ne, ne_eq] at hw
      have hne : ws.length ≠ k := by rw [hwl]; exact hw
      exact ⟨.WrongArgCount m, by simp only [construct, hne, ne_eq, not_false_eq_true, if_true]⟩
  case PpuMemWrPacket =>
    rcases args with _ | ⟨a, _ | ⟨n, data⟩⟩
    · cases vals with
      | nil => exact ⟨_, rfl⟩
      | cons v vs => simp at hlen
    · obtain ⟨v, vs, rfl, _, hvs⟩ := parseArgs_cons_ok _ _ _ hp
      have hvs0 := parseArgs_length _ _ hvs
      cases vs with
      | nil => exact ⟨_, rfl⟩
      | cons w ws => simp at hvs0
    · obtain ⟨v, vs, rfl, _, hvs⟩ := parseArgs_cons_ok _ _ _ hp
      obtain ⟨k, ws, rfl, hk, hws⟩ := parseArgs_cons_ok _ _ _ hvs
      have hwl := parseArgs_length _ _ hws
      simp only [PacketClass.wrongArgCount, hk, bne_iff_ne, ne_eq] at hw
      have hne : ws.length ≠ k := by rw [hwl]; exact hw
      exact ⟨.WrongArgCount m, by simp only [construct, hne, ne_eq, not_false_eq_true, if_true]⟩
  case DbgBrkPacket =>
    simp only [PacketClass.wrongArgCount, bne_iff_ne, ne_eq] at hw
    cases vals with
    | nil => exact absurd hlen.symm hw
    | cons v vs => exact ⟨_, rfl⟩
  case DbgRunPacket =>
    simp only [PacketClass.wrongArgCount, bne_iff_ne, ne_eq] at hw
    cases vals with
    | nil => exact absurd hlen.symm hw
    | cons v vs => exact ⟨_, rfl⟩
  case QueryDbgBrkPacket =>
    simp only [PacketClass.wrongArgCount, bne_iff_ne, ne_eq] at hw
    cases vals with
    | nil => exact absurd hlen.symm hw
    | cons v vs => exact ⟨_, rfl⟩
  case PpuDisablePacket =>
    simp only [PacketClass.wrongArgCount, bne_iff_ne, ne_eq] at hw
    cases vals with
    | nil => exact absurd hlen.symm hw
    | cons v vs => exact ⟨_, rfl⟩
  case CpuRegRdPacket =>
    simp only [PacketClass.wrongArgCount, bne_iff_ne, ne_eq] at hw
    rcases vals with _ | ⟨a, _ | ⟨b, t⟩⟩
    · exact ⟨_, rfl⟩
    · exact absurd hlen.symm hw
    · exact ⟨_, rfl⟩
  case CpuRegWrPacket =>
    simp only [PacketClass.wrongArgCount, bne_iff_ne, ne_eq] at hw
    rcases vals with _ | ⟨a, _ | ⟨b, _ | ⟨c, t⟩⟩⟩
    · exact ⟨_, rfl⟩
    · exact ⟨_, rfl⟩
    · exact absurd hlen.symm hw
    · exact ⟨_, rfl⟩
  case CartSetCfgPacket =>
    simp only [PacketClass.wrongArgCount, bne_iff_ne, ne_eq] at hw
    have hne : vals.length ≠ 16 := by rw [hlen]; exact hw
    exact ⟨.WrongArgCount m, by simp only [construct, hne, ne_eq, not_false_eq_true, if_true]⟩

/-- A register found by identifier has that identifier. -/
theorem CpuReg.ofId_toNat (r : Nat) (reg : CpuReg) (h : CpuReg.ofId r = some reg) :
    reg.toNat = r := by
  unfold CpuReg.ofId at h
  split at h <;> simp only [Option.some.injEq, reduceCtorEq] at h <;> subst h <;> rfl

/-- Whatever `construct` builds is a well-typed object of the class asked for. -/
theorem construct_ok_sound (m : List Char) (c : PacketClass) (vals : List Nat)
    (p : DbgPacket) (h : construct m c vals = .ok p) : p.cls = c ∧ p.WellTyped := by
  cases c <;> simp only [construct] at h <;> (repeat' split at h) <;>
    simp only [Except.ok.injEq, reduceCtorEq] at h <;> subst h <;>
    simp_all [DbgPacket.WellTyped, DbgPacket.cls]

/-- The class found for an opcode is the class named after it. -/
theorem PacketClass.ofOpCode_opCode (op : DbgPacketOpCode) (c : PacketClass)
    (h : PacketClass.ofOpCode op = some c) : c.opCode = op := by
  cases op <;> simp only [PacketClass.ofOpCode, Option.some.injEq, reduceCtorEq] at h <;>
    subst h <;> rfl

/-- Every packet the factory yields is well typed and belongs to the class
named after the opcode of the command's mnemonic. -/
theorem createObjFromString_ok_sound (mnemonics : List Char → Option DbgPacketOpCode)
    (pString : List Char) (p : DbgPacket)
    (h : DbgPacket.CreateObjFromString mnemonics pString = .ok p) :
    p.WellTyped ∧ commandOpCode mnemonics pString = some p.cls.opCode := by
  unfold DbgPacket.CreateObjFromString at h
  unfold commandOpCode
  cases ht : tokenize pString with
  | nil => rw [ht] at h; cases h
  | cons m args =>
    rw [ht] at h
    dsimp only at h
    simp only [List.head?_cons, Option.some_bind]
    cases hm : mnemonics m with
    | none => rw [hm] at h; cases h
    | some op =>
      rw [hm] at h
      dsimp only at h
      cases hc : PacketClass.ofOpCode op with
      | none => rw [hc] at h; cases h
      | some c =>
        rw [hc] at h
        dsimp only at h
        cases hp : parseArgs args with
        | error e => rw [hp] at h; cases h
        | ok vals =>
          rw [hp] at h
          obtain ⟨hcls, hwt⟩ := construct_ok_sound m c vals p h
          exact ⟨hwt, by rw [hcls, PacketClass.ofOpCode_opCode op c hc]⟩

/-- The factory does yield packets: three well-formed command lines and the
packets they give under the sample mnemonic table. -/
theorem createObjFromString_samples :
    DbgPacket.CreateObjFromString sampleMnemonics "cpumemrd 0x1234 4".toList
      = .ok (.CpuMemRdPacket 0x1234 4)
    ∧ DbgPacket.CreateObjFromString sampleMnemonics "cpumemwr 0x200 3 0xAA 0xbb 204".toList
      = .ok (.CpuMemWrPacket 0x200 3 [0xAA, 0xBB, 0xCC])
    ∧ DbgPacket.CreateObjFromString sampleMnemonics "  cpuregrd   2 ".toList
      = .ok (.CpuRegRdPacket CpuRegAc)
    ∧ DbgPacket.CreateObjFromString sampleMnemonics "dbgbrk".toList = .ok .DbgBrkPacket :=
  ⟨rfl, rfl, rfl, rfl⟩

/-- C9: the packet factory `DbgPacket::CreateObjFromString` never yields a
packet for a command text whose mnemonic is not in the catalog (no first token,
or one the mnemonic table does not know) or whose argument count is wrong for
the packet class of that mnemonic: the result is a parse error, and it is no
packet at all. -/
theorem createObjFromString_rejects (mnemonics : List Char → Option DbgPacketOpCode)
    (pString : List Char)
    (h : commandOpCode mnemonics pString = none
        ∨ ∃ c, (commandOpCode mnemonics pString).bind PacketClass.ofOpCode = some c
            ∧ c.wrongArgCount (commandArgs pString) = true) :
    (∃ e, DbgPacket.CreateObjFromString mnemonics pString = .error e)
    ∧ ∀ p, DbgPacket.CreateObjFromString mnemonics pString ≠ .ok p := by
  have key : ∃ e, DbgPacket.CreateObjFromString mnemonics pString = .error e := by
    unfold DbgPacket.CreateObjFromString
    unfold commandOpCode commandArgs at h
    cases ht : tokenize pString with
    | nil => exact ⟨.EmptyCommand, rfl⟩
    | cons m args =>
      rw [ht] at h
      simp only [List.head?_cons, Option.some_bind, List.tail_cons] at h
      dsimp only
      cases hm : mnemonics m with
      | none => exact ⟨.UnknownMnemonic m, rfl⟩
      | some op =>
        rw [hm] at h
        rcases h with h | ⟨c, hc, hw⟩
        · exact absurd h (by simp)
        · simp only [Option.some_bind] at hc
          simp only [hc]
          cases hp : parseArgs args with
          | error e => exact ⟨e, rfl⟩
          | ok vals => exact construct_wrongArgCount m c args vals hp hw
  obtain ⟨e, he⟩ := key
  exact ⟨⟨e, he⟩, fun p hp => by rw [he] at hp; cases hp⟩

/-- Witness of C9: `dbgbrk 1` gives one argument to a command that takes none. -/
theorem createObjFromString_rejects_witness :
    (commandOpCode sampleMnemonics "dbgbrk 1".toList = none
        ∨ ∃ c, (commandOpCode sampleMnemonics "dbgbrk 1".toList).bind PacketClass.ofOpCode
              = some c
            ∧ c.wrongArgCount (commandArgs "dbgbrk 1".toList) = true)
    ∧ (∃ e, DbgPacket.CreateObjFromString sampleMnemonics "dbgbrk 1".toList = .error e)
    ∧ ∀ p, DbgPacket.CreateObjFromString sampleMnemonics "dbgbrk 1".toList ≠ .ok p :=
  ⟨Or.inr ⟨.DbgBrkPacket, rfl, rfl⟩,
    createObjFromString_rejects sampleMnemonics "dbgbrk 1".toList
      (Or.inr ⟨.DbgBrkPacket, rfl, rfl⟩)⟩

end NesDbg
